import Mathlib

/-!
Formal model of the data-normalization and aggregation pipeline of the
streamlit-apps-analise-bilheteria dashboard (victorborba7).

Each definition is a shallow embedding of a piece of the Python source
(`app.py`, `index.py`, `graficos/gerais/index.py`): pandas columns become
Lean lists, nullable cells become `Option`, machine floats used only for
exact counts and currency sums become `ℚ`, and code that can raise becomes
`Except`.  The theorems below settle the specification's claims about this
pipeline.
-/

/- ### Generic list helpers -/

/-- Helper for first-occurrence deduplication: drops elements already in
`seen`, keeping the first of equal elements in order. -/
def dedupFirstAux {α : Type} [DecidableEq α] (seen : List α) : List α → List α
  | [] => []
  | a :: l => if a ∈ seen then dedupFirstAux seen l else a :: dedupFirstAux (a :: seen) l

/-- First-occurrence deduplication, the semantics of pandas
`drop_duplicates()` / `Series.unique()` (the first of equal elements is
kept, order otherwise preserved). -/
def dedupFirst {α : Type} [DecidableEq α] (l : List α) : List α := dedupFirstAux [] l

theorem mem_dedupFirstAux {α : Type} [DecidableEq α] (x : α) :
    ∀ (l seen : List α), x ∈ dedupFirstAux seen l ↔ x ∈ l ∧ x ∉ seen := by
  intro l
  induction l with
  | nil => intro seen; simp [dedupFirstAux]
  | cons a l ih =>
    intro seen
    by_cases ha : a ∈ seen
    · rw [dedupFirstAux, if_pos ha, ih]
      constructor
      · rintro ⟨h1, h2⟩
        exact ⟨List.mem_cons_of_mem a h1, h2⟩
      · rintro ⟨h1, h2⟩
        rcases List.mem_cons.mp h1 with rfl | h1
        · exact absurd ha h2
        · exact ⟨h1, h2⟩
    · rw [dedupFirstAux, if_neg ha]
      constructor
      · intro hx
        rcases List.mem_cons.mp hx with rfl | hx
        · exact ⟨List.mem_cons_self x l, ha⟩
        · obtain ⟨h1, h2⟩ := (ih (a :: seen)).mp hx
          exact ⟨List.mem_cons_of_mem a h1, fun hs => h2 (List.mem_cons_of_mem a hs)⟩
      · rintro ⟨h1, h2⟩
        rcases List.mem_cons.mp h1 with rfl | h1
        · exact List.mem_cons_self x _
        · by_cases hxa : x = a
          · subst hxa
            exact List.mem_cons_self x _
          · refine List.mem_cons_of_mem a ((ih (a :: seen)).mpr ⟨h1, fun hx => ?_⟩)
            rcases List.mem_cons.mp hx with h | h
            · exact hxa h
            · exact h2 h

theorem nodup_dedupFirstAux {α : Type} [DecidableEq α] :
    ∀ (l seen : List α), (dedupFirstAux seen l).Nodup := by
  intro l
  induction l with
  | nil => intro seen; simp [dedupFirstAux]
  | cons a l ih =>
    intro seen
    by_cases ha : a ∈ seen
    · rw [dedupFirstAux, if_pos ha]
      exact ih seen
    · rw [dedupFirstAux, if_neg ha]
      refine List.nodup_cons.mpr ⟨?_, ih (a :: seen)⟩
      intro hmem
      rw [mem_dedupFirstAux] at hmem
      exact hmem.2 (List.mem_cons_self a seen)

theorem mem_dedupFirst {α : Type} [DecidableEq α] (x : α) (l : List α) :
    x ∈ dedupFirst l ↔ x ∈ l := by
  rw [dedupFirst, mem_dedupFirstAux]
  simp

theorem nodup_dedupFirst {α : Type} [DecidableEq α] (l : List α) :
    (dedupFirst l).Nodup :=
  nodup_dedupFirstAux l []

/- ### C1 — tax-ID (CPF) normalization (`app.py` 51-58 and 138-145) -/

/-- Shallow embedding of Python `str.zfill(width)` on the character list of
the string: a string at least `width` long is returned unchanged; a shorter
one is padded with `'0'` on the left, except that a leading `'+'` or `'-'`
stays in front of the inserted zeros. -/
def zfill (w : Nat) (s : List Char) : List Char :=
  if w ≤ s.length then s
  else
    match s with
    | [] => List.replicate w '0'
    | c :: rest =>
      if c = '+' ∨ c = '-' then c :: (List.replicate (w - s.length) '0' ++ rest)
      else List.replicate (w - s.length) '0' ++ (c :: rest)

/-- String wrapper for `zfill`. -/
def zfillStr (w : Nat) (s : String) : String := String.mk (zfill w s.toList)

theorem zfill_length (w : Nat) (s : List Char) :
    (zfill w s).length = max w s.length := by
  unfold zfill
  split
  · next h => omega
  · next h =>
    split
    · simp at h ⊢
    · split <;> simp at h ⊢ <;> omega

theorem zfill_of_le (w : Nat) (s : List Char) (h : w ≤ s.length) :
    zfill w s = s := by
  unfold zfill
  simp [h]

/-- Sentinel texts that the CPF columns replace by a true null
(`app.py` line 54: `.replace(['nan', 'None', 'NaN', ''], None)`; the same
list appears in the lambda on lines 57 and 144). -/
def invalidCPFValues : List String := ["nan", "None", "NaN", ""]

/-- First CPF cleaning step (`app.py` line 54 / 141): sentinel strings
become null, everything else is kept. -/
def replaceInvalidCPF (x : Option String) : Option String :=
  match x with
  | none => none
  | some s => if s ∈ invalidCPFValues then none else some s

/-- Second CPF cleaning step (`app.py` lines 56-58 / 143-145):
`x.zfill(11) if x is not None and x not in ['nan', 'None', 'NaN', ''] else None`. -/
def zfillCPF (x : Option String) : Option String :=
  match x with
  | none => none
  | some s => if s ∈ invalidCPFValues then none else some (zfillStr 11 s)

/-- The full CPF cleaning applied to one cell (already cast to text by
`.astype(str)`): sentinel replacement followed by the zero-padding lambda. -/
def cleanCPF (x : Option String) : Option String := zfillCPF (replaceInvalidCPF x)

/-- C1 counterexample: the claim says non-numeric values are left
unchanged, but `str.zfill(11)` pads every short string regardless of
content: the non-numeric three-character value `"abc"` is rewritten to
`"00000000abc"`. -/
theorem cleanCPF_pads_nonnumeric :
    cleanCPF (some "abc") = some "00000000abc"
    ∧ "abc".toList.all Char.isDigit = false
    ∧ "abc".length ≤ 11
    ∧ cleanCPF (some "abc") ≠ some "abc" := by
  refine ⟨by decide, by decide, by decide, by decide⟩

/-- C1 (amended): cleaning a non-sentinel CPF cell pads every value of at
most 11 characters — numeric or not — to exactly 11 characters (zeros
inserted after a leading sign, if any), and leaves every value of at least
11 characters unchanged; sentinel cells and nulls become null. -/
theorem cleanCPF_length_spec (s : String) (hs : s ∉ invalidCPFValues) :
    (s.length ≤ 11 → ∃ t, cleanCPF (some s) = some t ∧ t.length = 11)
    ∧ (11 ≤ s.length → cleanCPF (some s) = some s) := by
  have hclean : cleanCPF (some s) = some (zfillStr 11 s) := by
    simp [cleanCPF, replaceInvalidCPF, zfillCPF, hs]
  constructor
  · intro hle
    refine ⟨zfillStr 11 s, hclean, ?_⟩
    show (zfill 11 s.toList).length = 11
    rw [zfill_length]
    have hlen : s.toList.length = s.length := rfl
    omega
  · intro hge
    rw [hclean]
    have : zfill 11 s.toList = s.toList := zfill_of_le 11 s.toList hge
    show some (String.mk (zfill 11 s.toList)) = some s
    rw [this]
    cases s
    rfl

/-- C1 witness: the numeric value `"123"` is padded to the 11-character
string required by the amended claim. -/
theorem cleanCPF_length_spec_witness :
    ("123" : String) ∉ invalidCPFValues
    ∧ (∃ t, cleanCPF (some "123") = some t ∧ t.length = 11) := by
  have h := cleanCPF_length_spec "123" (by decide)
  exact ⟨by decide, h.1 (by decide)⟩

/- ### C2 — age brackets (`app.py` 61-70) -/

/-- Bin edges of the age brackets (`app.py` line 68). -/
def faixaBins : List Int := [0, 18, 25, 35, 45, 55, 65, 100]

/-- Labels of the age brackets (`app.py` line 69). -/
def faixaLabels : List String :=
  ["Menor de 18", "18-24", "25-34", "35-44", "45-54", "55-64", "65+"]

/-- Shallow embedding of `pd.cut` with its default `right=True`: a value
`x` receives the i-th label when `bins[i] < x ≤ bins[i+1]` (left-open,
right-closed intervals), and null when it falls outside every bin. -/
def pdCutRight : List Int → List String → Int → Option String
  | lo :: hi :: bs, lab :: labs, x =>
    if lo < x ∧ x ≤ hi then some lab else pdCutRight (hi :: bs) labs x
  | _, _, _ => none

/-- The derived `Faixa Etária` column (`app.py` lines 66-70). -/
def faixaEtaria (idade : Int) : Option String := pdCutRight faixaBins faixaLabels idade

/-- Age in whole years (`app.py` line 63): day difference floor-divided by
365 (Python `//` is floor division). -/
def idadeAnos (todayDays birthDays : Int) : Int := Int.fdiv (todayDays - birthDays) 365

/-- C2: evaluating the derived age bracket at the claim's boundary inputs.
`pd.cut` is called with its default right-closed bins, so an age of
exactly 18 is labeled `"Menor de 18"` (bin `(0, 18]`), an age of exactly
65 is labeled `"55-64"` (bin `(55, 65]`), an age of 101 falls outside the
last bin `(65, 100]` and gets no label at all, and an age of 0 falls
outside the first bin.  This contradicts the claim's half-open brackets
`[18, 25) ↦ "18-24"` and `[65, ∞) ↦ "65+"` — and the code's own labels. -/
theorem faixaEtaria_boundary_bug :
    faixaEtaria 18 = some "Menor de 18"
    ∧ faixaEtaria 65 = some "55-64"
    ∧ faixaEtaria 101 = none
    ∧ faixaEtaria 0 = none := by
  refine ⟨by decide, by decide, by decide, by decide⟩

/- ### C3 — date→event cross-referencing (`app.py` 147-159) -/

/-- The date→event dictionary of `app.py` lines 150-155: the distinct
(date, event) pairs of the ticketing table (`drop_duplicates`, first
occurrence kept) are poured into a Python dict keyed by date
(`set_index("TDL Event Date")["TDL Event"].to_dict()`), so for a date
carried by several distinct pairs the later pair overwrites the earlier
one.  Lookup therefore finds the last distinct pair with that date. -/
def mapaDataEvento (bilhetes : List (Int × String)) (d : Int) : Option String :=
  ((dedupFirst bilhetes).reverse.find? (fun p => p.1 == d)).map Prod.snd

/-- Annotation of the staffing table (`app.py` line 159):
`cred["EVENTO"] = cred["DATA"].map(mapa_data_evento)` — every staffing
date is annotated in place; a date that is not a key of the dictionary
yields a null event (pandas `NaN`), and no row is dropped. -/
def annotateCred (bilhetes : List (Int × String)) (cred : List Int) :
    List (Int × Option String) :=
  cred.map (fun d => (d, mapaDataEvento bilhetes d))

theorem mapaDataEvento_some (bilhetes : List (Int × String)) (d : Int) (e : String)
    (h : mapaDataEvento bilhetes d = some e) : (d, e) ∈ bilhetes := by
  simp only [mapaDataEvento, Option.map_eq_some'] at h
  obtain ⟨p, hfind, hpe⟩ := h
  have hpred := List.find?_some hfind
  have hmem := List.mem_of_find?_eq_some hfind
  rw [List.mem_reverse, mem_dedupFirst] at hmem
  obtain ⟨p1, p2⟩ := p
  simp only [beq_iff_eq] at hpred
  subst hpred
  subst hpe
  exact hmem

/-- C3: annotating the staffing table retains every record (the output has
one row per input row), a staffing date that appears in no ticketing row
receives a null event rather than an error, and when the annotation does
produce an event name, that name is paired with the same date somewhere in
the ticketing table. -/
theorem annotateCred_spec (bilhetes : List (Int × String)) (cred : List Int) :
    (annotateCred bilhetes cred).length = cred.length
    ∧ (∀ r ∈ annotateCred bilhetes cred,
        ((∀ e, (r.1, e) ∉ bilhetes) → r.2 = none)
        ∧ (∀ e, r.2 = some e → (r.1, e) ∈ bilhetes)
        ∧ (∀ e0, (r.1, e0) ∈ bilhetes → ∃ e, r.2 = some e ∧ (r.1, e) ∈ bilhetes)) := by
  constructor
  · simp [annotateCred]
  · intro r hr
    simp only [annotateCred, List.mem_map] at hr
    obtain ⟨d, _, rfl⟩ := hr
    refine ⟨?_, ?_, ?_⟩
    · intro habs
      cases hmap : mapaDataEvento bilhetes d with
      | none => rfl
      | some e => exact absurd (mapaDataEvento_some bilhetes d e hmap) (habs e)
    · intro e he
      exact mapaDataEvento_some bilhetes d e he
    · intro e0 he0
      have hmem : (d, e0) ∈ (dedupFirst bilhetes).reverse := by
        rw [List.mem_reverse, mem_dedupFirst]
        exact he0
      have hsome : ((dedupFirst bilhetes).reverse.find? (fun p => p.1 == d)).isSome := by
        rw [List.find?_isSome]
        exact ⟨(d, e0), hmem, by simp⟩
      obtain ⟨p, hp⟩ := Option.isSome_iff_exists.mp hsome
      have hmapa : mapaDataEvento bilhetes d = some p.2 := by
        simp [mapaDataEvento, hp]
      exact ⟨p.2, hmapa, mapaDataEvento_some bilhetes d p.2 hmapa⟩

/-- C3 witness: with ticketing pairs date 1 ↦ "Show A", the staffing dates
1 and 2 are annotated to `some "Show A"` and `none`, and both records are
retained. -/
theorem annotateCred_spec_witness :
    (annotateCred [(1, "Show A")] [1, 2]).length = 2
    ∧ annotateCred [(1, "Show A")] [1, 2] = [(1, some "Show A"), (2, none)] := by
  have h := annotateCred_spec [(1, "Show A")] [1, 2]
  exact ⟨h.1, by decide⟩

/- ### C8 — source-file signature check (`app.py` 13-29) -/

/-- Diagnostic shown when the downloaded content fails the spreadsheet
signature check (`app.py` lines 22-25): the operator is shown the byte
length (`len(content)`) and the leading bytes (`content[:100]`) before
`ValueError` is raised. -/
structure MalformedSourceError where
  tamanho : Nat
  primeirosBytes : List Nat
  deriving DecidableEq, Repr

/-- ZIP/Excel magic bytes `b'PK\x03\x04'` (`app.py` line 20). -/
def zipSignature : List Nat := [0x50, 0x4B, 0x03, 0x04]

/-- Shallow embedding of `load_file_from_github` after a successful HTTP
response (`app.py` lines 19-29): content shorter than 100 bytes or not
starting with the ZIP signature raises (the `raise ValueError` preceded by
the two diagnostic lines); otherwise the bytes are returned unchanged in a
buffer positioned at the start (`BytesIO(content)` then `seek(0)`). -/
def loadFileFromGithub (content : List Nat) : Except MalformedSourceError (List Nat) :=
  if content.length < 100 ∨ content.take 4 ≠ zipSignature then
    Except.error ⟨content.length, content.take 100⟩
  else
    Except.ok content

/-- C8: the loader errors exactly when the content is shorter than 100
bytes or its first four bytes are not the ZIP/Excel signature; in the
error case the diagnostic carries the byte length and the leading bytes,
and in the success case the content is returned unchanged. -/
theorem loadFileFromGithub_spec (content : List Nat) :
    ((∃ err, loadFileFromGithub content = Except.error err)
        ↔ (content.length < 100 ∨ content.take 4 ≠ zipSignature))
    ∧ ((content.length < 100 ∨ content.take 4 ≠ zipSignature) →
        loadFileFromGithub content = Except.error ⟨content.length, content.take 100⟩)
    ∧ (¬ (content.length < 100 ∨ content.take 4 ≠ zipSignature) →
        loadFileFromGithub content = Except.ok content) := by
  unfold loadFileFromGithub
  by_cases h : content.length < 100 ∨ content.take 4 ≠ zipSignature
  · simp [h]
  · simp [h]

/-- C8 witness: a 100-byte ZIP-signed content loads unchanged, and a
3-byte content is rejected with its length and leading bytes in the
diagnostic. -/
theorem loadFileFromGithub_spec_witness :
    loadFileFromGithub (zipSignature ++ List.replicate 96 0)
        = Except.ok (zipSignature ++ List.replicate 96 0)
    ∧ loadFileFromGithub [1, 2, 3] = Except.error ⟨3, [1, 2, 3]⟩ := by
  exact ⟨(loadFileFromGithub_spec _).2.2 (by decide),
    (loadFileFromGithub_spec _).2.1 (by decide)⟩

/- ### C4 — per-group percentages over the filtered subset
(`index.py` 512-537, `graficos/gerais/index.py` 69-97) -/

/-- The group keys of a grouped aggregation (`df.groupby(key)`), one entry
per distinct key of the already-filtered rows.  pandas sorts the group
keys; the order never matters to the grouped sums and percentages proved
below, so first-occurrence order is used here. -/
def groupKeys (rows : List (String × ℚ)) : List String :=
  dedupFirst (rows.map Prod.fst)

/-- The grouped sum of the measure for one key
(`groupby(key)[measure].sum()`). -/
def groupSum (rows : List (String × ℚ)) (k : String) : ℚ :=
  ((rows.filter (fun p => p.1 == k)).map Prod.snd).sum

/-- The denominator of the percentage column: the code sums the grouped
totals of the filtered frame (`index.py` line 536:
`total_geral = ranking["Total de Ingressos"].sum()`, where `ranking` was
grouped from the filtered `df_b`; `graficos/gerais/index.py` line 96 sums
the per-client grouped counts the same way). -/
def totalGeral (rows : List (String × ℚ)) : ℚ :=
  ((groupKeys rows).map (groupSum rows)).sum

/-- The percentage of one group before display rounding (`index.py` line
537, `graficos/gerais/index.py` line 97): `group / total * 100`. -/
def percentual (rows : List (String × ℚ)) (k : String) : ℚ :=
  groupSum rows k / totalGeral rows * 100

theorem groupSum_cons (p : String × ℚ) (rows : List (String × ℚ)) (k : String) :
    groupSum (p :: rows) k = (if p.1 = k then p.2 else 0) + groupSum rows k := by
  by_cases h : p.1 = k
  · simp [groupSum, List.filter_cons, h]
  · simp [groupSum, List.filter_cons, h]

theorem list_sum_map_add {α : Type} (l : List α) (f g : α → ℚ) :
    (l.map (fun x => f x + g x)).sum = (l.map f).sum + (l.map g).sum := by
  induction l with
  | nil => simp
  | cons a l ih => simp [ih]; ring

theorem sum_indicator_notmem (keys : List String) (a : String) (v : ℚ)
    (ha : a ∉ keys) :
    (keys.map (fun k => if a = k then v else 0)).sum = 0 := by
  induction keys with
  | nil => simp
  | cons b keys ih =>
    have hab : a ≠ b := fun h => ha (h ▸ List.mem_cons_self b keys)
    have hmem : a ∉ keys := fun h => ha (List.mem_cons_of_mem b h)
    simp [hab, ih hmem]

theorem sum_indicator_of_nodup (keys : List String) (a : String) (v : ℚ)
    (hnd : keys.Nodup) (ha : a ∈ keys) :
    (keys.map (fun k => if a = k then v else 0)).sum = v := by
  induction keys with
  | nil => simp at ha
  | cons b keys ih =>
    rcases List.mem_cons.mp ha with rfl | hmem
    · simp only [List.map_cons, List.sum_cons, if_pos rfl]
      rw [sum_indicator_notmem keys a v (List.nodup_cons.mp hnd).1]
      simp
    · have hab : a ≠ b := by
        rintro rfl
        exact (List.nodup_cons.mp hnd).1 hmem
      simp only [List.map_cons, List.sum_cons, if_neg hab]
      rw [ih (List.nodup_cons.mp hnd).2 hmem]
      ring

/-- Partition identity: summing the grouped sums over a duplicate-free key
list covering every row recovers the plain column sum of the rows. -/
theorem sum_groupSum_eq (keys : List String) (rows : List (String × ℚ))
    (hnd : keys.Nodup) (hcov : ∀ p ∈ rows, p.1 ∈ keys) :
    (keys.map (groupSum rows)).sum = (rows.map Prod.snd).sum := by
  induction rows with
  | nil =>
    have hz : keys.map (groupSum []) = keys.map (fun _ => (0 : ℚ)) :=
      List.map_congr_left (fun k _ => by simp [groupSum])
    simp [hz]
  | cons p rows ih =>
    have hstep : keys.map (groupSum (p :: rows))
        = keys.map (fun k => (if p.1 = k then p.2 else 0) + groupSum rows k) :=
      List.map_congr_left (fun k _ => groupSum_cons p rows k)
    rw [hstep, list_sum_map_add,
      sum_indicator_of_nodup keys p.1 p.2 hnd (hcov p (List.mem_cons_self p rows)),
      ih (fun q hq => hcov q (List.mem_cons_of_mem p hq))]
    simp

/-- The percentage denominator is exactly the measure total of the
filtered rows themselves. -/
theorem totalGeral_eq_filtered_total (rows : List (String × ℚ)) :
    totalGeral rows = (rows.map Prod.snd).sum := by
  refine sum_groupSum_eq _ rows (nodup_dedupFirst _) ?_
  intro p hp
  rw [groupKeys, mem_dedupFirst]
  exact List.mem_map_of_mem Prod.fst hp

/-- C4: for every filtered subset of rows, the percentage denominator is
the total of that filtered subset (never anything external to it), and the
per-group percentages of one grouping dimension add up to exactly 100 when
the filtered total is nonzero (the code additionally rounds each value to
one decimal for display, which perturbs the sum only within rounding
tolerance). -/
theorem percentual_sums_to_100 (rows : List (String × ℚ))
    (h : totalGeral rows ≠ 0) :
    totalGeral rows = (rows.map Prod.snd).sum
    ∧ ((groupKeys rows).map (percentual rows)).sum = 100 := by
  refine ⟨totalGeral_eq_filtered_total rows, ?_⟩
  have hmap : (groupKeys rows).map (percentual rows)
      = (groupKeys rows).map (fun k => groupSum rows k * (100 / totalGeral rows)) := by
    refine List.map_congr_left (fun k _ => ?_)
    rw [percentual]
    ring
  rw [hmap, List.sum_map_mul_right]
  show totalGeral rows * (100 / totalGeral rows) = 100
  field_simp

/-- C4 witness: two groups with measures 3 and 1 have percentages 75 and
25, which sum to 100, over the filtered total 4. -/
theorem percentual_sums_to_100_witness :
    totalGeral [("A", 3), ("B", 1)] ≠ 0
    ∧ totalGeral [("A", 3), ("B", 1)] = ([("A", (3 : ℚ)), ("B", 1)].map Prod.snd).sum
    ∧ ((groupKeys [("A", 3), ("B", 1)]).map (percentual [("A", 3), ("B", 1)])).sum = 100 := by
  have h : totalGeral [("A", 3), ("B", 1)] ≠ 0 := by
    simp [totalGeral, groupKeys, groupSum, dedupFirst, dedupFirstAux]
    norm_num
  have hspec := percentual_sums_to_100 [("A", 3), ("B", 1)] h
  exact ⟨h, hspec.1, hspec.2⟩

/- ### C5 — behaviour on missing columns (`app.py` 526-574 and 114-119) -/

/-- A data frame for the purposes of column handling: a list of named
columns of nullable text cells. -/
structure Table where
  cols : List (String × List (Option String))
  deriving DecidableEq, Repr

/-- The presence check `c in df.columns`. -/
def Table.hasCol (t : Table) (c : String) : Bool :=
  t.cols.any (fun p => p.1 == c)

/-- Unguarded pandas column access `df[c]`: raises `KeyError` when the
column is absent. -/
def Table.getCol (t : Table) (c : String) : Except String (List (Option String)) :=
  match t.cols.find? (fun p => p.1 == c) with
  | some p => Except.ok p.2
  | none => Except.error ("KeyError: " ++ c)

/-- Insertion step of `sorted(...)` with Lean's String order standing in
for Python's lexicographic order (the ordering plays no role in the
column-presence behaviour proved below). -/
def insertSorted (a : String) : List String → List String
  | [] => [a]
  | b :: l => if a ≤ b then a :: b :: l else b :: insertSorted a l

/-- `sorted(series.dropna().unique())`. -/
def sortedUnique (cells : List (Option String)) : List String :=
  (dedupFirst (cells.filterMap id)).foldr insertSorted []

/-- The event-filter options of the ticketing tab (`app.py` line 529:
`eventos = sorted(bilhetes["TDL Event"].dropna().unique())`): the column
access is not preceded by any presence check. -/
def eventosStep (t : Table) : Except String (List String) :=
  (t.getCol "TDL Event").map sortedUnique

/-- The country-filter options (`app.py` lines 561-566): guarded by
`if pais_col in bilhetes.columns`, otherwise zero options. -/
def paisStep (t : Table) : Except String (List String) :=
  if t.hasCol "TDL Customer Country" then
    (t.getCol "TDL Customer Country").map sortedUnique
  else
    Except.ok []

/-- The ticket-type filter options (`app.py` lines 569-574), the same
guarded shape. -/
def tipoIngressoStep (t : Table) : Except String (List String) :=
  if t.hasCol "TDL Price Category" then
    (t.getCol "TDL Price Category").map sortedUnique
  else
    Except.ok []

/-- The weekday-filter options (`app.py` lines 546-551): guarded by
`if "dia_semana_label" in bilhetes.columns`, otherwise an empty option
list; present weekdays are kept in the fixed Monday-to-Sunday order. -/
def diaSemanaStep (t : Table) : Except String (List String) :=
  if t.hasCol "dia_semana_label" then
    (t.getCol "dia_semana_label").map (fun cells =>
      ["Segunda", "Terça", "Quarta", "Quinta", "Sexta", "Sábado", "Domingo"].filter
        (fun d => (cells.filterMap id).contains d))
  else
    Except.ok []

/-- The common length of the columns of a data frame (all columns of a
pandas frame have one length; `max` realizes that common value here). -/
def Table.rowCount (t : Table) : Nat :=
  (t.cols.map (fun p => p.2.length)).foldr max 0

/-- The QTD defaulting (`app.py` lines 114-119): a staffing sheet without
a `QTD` column gets a constant column of 1s — one per row — and is never
an error. -/
def garantirQTD (t : Table) : Table :=
  if t.hasCol "QTD" then t
  else ⟨t.cols ++ [("QTD", List.replicate t.rowCount (some "1"))]⟩

theorem getCol_ok_of_hasCol (t : Table) (c : String) (h : t.hasCol c = true) :
    ∃ v, t.getCol c = Except.ok v := by
  rw [Table.hasCol, List.any_eq_true] at h
  obtain ⟨p, hp, hpc⟩ := h
  have : (t.cols.find? (fun p => p.1 == c)).isSome := by
    rw [List.find?_isSome]
    exact ⟨p, hp, hpc⟩
  obtain ⟨q, hq⟩ := Option.isSome_iff_exists.mp this
  exact ⟨q.2, by rw [Table.getCol, hq]⟩

theorem getCol_error_of_missing (t : Table) (c : String) (h : t.hasCol c = false) :
    t.getCol c = Except.error ("KeyError: " ++ c) := by
  have : t.cols.find? (fun p => p.1 == c) = none := by
    rw [List.find?_eq_none]
    intro p hp hpc
    have : t.hasCol c = true := by
      rw [Table.hasCol, List.any_eq_true]
      exact ⟨p, hp, hpc⟩
    rw [this] at h
    exact absurd h (by simp)
  rw [Table.getCol, this]

/-- C5 counterexample: on a table having only a `QTD` column, the
event-filter step of `main` (`app.py` line 529) accesses `TDL Event`
without a presence check and aborts with a `KeyError` instead of
degrading. -/
theorem eventosStep_raises_on_missing_column :
    eventosStep ⟨[("QTD", [some "1"])]⟩ = Except.error "KeyError: TDL Event" := by
  rfl

/-- C5 (amended): the guarded consuming steps — country filter, ticket
type filter, weekday filter, QTD defaulting — never abort, degrading to
zero options or a default column on any input table; but the policy is not
universal: the steps consuming the core columns (`TDL Event` at `app.py`
line 529, similarly `TDL Event Date` at line 533) access them unguarded
and abort with `KeyError` exactly when the column is absent. -/
theorem missing_column_policy (t : Table) :
    (∃ v, paisStep t = Except.ok v)
    ∧ (∃ v, tipoIngressoStep t = Except.ok v)
    ∧ (∃ v, diaSemanaStep t = Except.ok v)
    ∧ (garantirQTD t).hasCol "QTD" = true
    ∧ (t.hasCol "TDL Event" = false →
        eventosStep t = Except.error "KeyError: TDL Event") := by
  refine ⟨?_, ?_, ?_, ?_, ?_⟩
  · rw [paisStep]
    by_cases h : t.hasCol "TDL Customer Country" = true
    · obtain ⟨v, hv⟩ := getCol_ok_of_hasCol t _ h
      exact ⟨sortedUnique v, by rw [if_pos h, hv]; rfl⟩
    · exact ⟨[], by rw [if_neg h]⟩
  · rw [tipoIngressoStep]
    by_cases h : t.hasCol "TDL Price Category" = true
    · obtain ⟨v, hv⟩ := getCol_ok_of_hasCol t _ h
      refine ⟨_, by rw [if_pos h, hv]; rfl⟩
    · exact ⟨[], by rw [if_neg h]⟩
  · rw [diaSemanaStep]
    by_cases h : t.hasCol "dia_semana_label" = true
    · obtain ⟨v, hv⟩ := getCol_ok_of_hasCol t _ h
      refine ⟨_, by rw [if_pos h, hv]; rfl⟩
    · exact ⟨[], by rw [if_neg h]⟩
  · rw [garantirQTD]
    by_cases h : t.hasCol "QTD" = true
    · rw [if_pos h]
      exact h
    · rw [if_neg h, Table.hasCol, List.any_append]
      simp [Table.hasCol]
  · intro h
    rw [eventosStep, getCol_error_of_missing t _ h]
    rfl

/-- C5 witness: on the empty table the guarded country filter degrades to
zero options while the unguarded event filter raises. -/
theorem missing_column_policy_witness :
    (∃ v, paisStep ⟨[]⟩ = Except.ok v)
    ∧ eventosStep ⟨[]⟩ = Except.error "KeyError: TDL Event" := by
  have h := missing_column_policy ⟨[]⟩
  exact ⟨h.1, h.2.2.2.2 (by decide)⟩

/- ### C6 — division safety (`app.py` 616-623, `index.py` 535-540) -/

/-- Guarded overview metric (`app.py` line 616):
`media_ingressos_por_cpf = total_ingressos / total_clientes if total_clientes > 0 else 0`. -/
def mediaIngressosPorCpf (totalIngressos totalClientes : ℚ) : ℚ :=
  if 0 < totalClientes then totalIngressos / totalClientes else 0

/-- Guarded overview metric (`app.py` line 617):
`ticket_medio = total_receita / total_ingressos if total_ingressos > 0 else 0`. -/
def ticketMedioGeral (totalReceita totalIngressos : ℚ) : ℚ :=
  if 0 < totalIngressos then totalReceita / totalIngressos else 0

/-- Guarded overview metric (`app.py` line 623):
`perc_recorrentes = (qtd_recorrentes / total_clientes * 100) if total_clientes > 0 else 0`. -/
def percRecorrentes (qtdRecorrentes totalClientes : ℚ) : ℚ :=
  if 0 < totalClientes then qtdRecorrentes / totalClientes * 100 else 0

/-- pandas float column division: a zero denominator produces `inf` (or
`NaN` for `0/0`) — a non-numeric value, modelled by `none` — never the
number zero, and never an exception. -/
def pdDiv (a b : ℚ) : Option ℚ := if b = 0 then none else some (a / b)

/-- The unguarded per-event mean ticket price of the ranking (`index.py`
line 540: `(ranking["Receita Total (R$)"] / ranking["Total de Ingressos"]).round(2)`);
the two-decimal display rounding keeps a non-numeric value non-numeric. -/
def ticketMedioRanking (receita ingressos : ℚ) : Option ℚ :=
  (pdDiv receita ingressos).map (fun q => ((round (q * 100) : ℤ) : ℚ) / 100)

/-- C6 counterexample: an event group with revenue 50 and a ticket total
of 0 (a count that a filter combination can legitimately produce) makes
the ranking's mean-price division return a non-numeric value, not zero. -/
theorem ticketMedioRanking_zero_denominator :
    ticketMedioRanking 50 0 = none
    ∧ ticketMedioRanking 50 0 ≠ some 0 := by
  constructor <;> simp [ticketMedioRanking, pdDiv]

/-- C6 (amended): the overview metrics of `main` (`app.py` 616-623) follow
the safe-division policy — a zero denominator yields zero, a positive one
yields the true quotient — but the policy is not universal: the unguarded
pandas divisions of the event ranking (`index.py` 537 and 540) produce a
non-numeric `inf`/`NaN` value on a zero denominator, never zero. -/
theorem safe_division_policy (a : ℚ) :
    mediaIngressosPorCpf a 0 = 0
    ∧ ticketMedioGeral a 0 = 0
    ∧ percRecorrentes a 0 = 0
    ∧ (∀ b : ℚ, 0 < b → mediaIngressosPorCpf a b = a / b)
    ∧ pdDiv a 0 = none := by
  refine ⟨by simp [mediaIngressosPorCpf], by simp [ticketMedioGeral],
    by simp [percRecorrentes], ?_, by simp [pdDiv]⟩
  intro b hb
  rw [mediaIngressosPorCpf, if_pos hb]

/-- C6 witness: with 7 tickets, a zero customer count gives the metric 0
and a count of 2 gives the true quotient. -/
theorem safe_division_policy_witness :
    mediaIngressosPorCpf 7 0 = 0 ∧ mediaIngressosPorCpf 7 2 = 7 / 2 := by
  have h := safe_division_policy 7
  exact ⟨h.1, h.2.2.2.1 2 (by norm_num)⟩

/- ### C7 — two-role roster explosion (Entity Unification, spec §4.2) -/

/-- Modelled from the spec: the artistic-roster explosion step of Entity
Unification is not present under `src/` (`load_data` reads only the
`GERAL 2025` and `Desmontagem 2024` sheets); the spec describes a roster
whose rows carry two independent role columns.  One row of that roster,
with the fields the explosion copies. -/
structure ArtisticRow where
  funcao1 : String
  funcao2 : String
  data : Int
  empresa : String
  deriving DecidableEq, Repr

/-- Modelled from the spec: one single-role output row of the explosion,
`categoria` carrying the role and the other fields copied. -/
structure CategoriaRow where
  categoria : String
  data : Int
  empresa : String
  deriving DecidableEq, Repr

/-- Modelled from the spec: the explosion emits one output row per
non-empty role value, copying all other fields; a row whose two roles are
both empty disappears. -/
def explodeRoles (rows : List ArtisticRow) : List CategoriaRow :=
  rows.flatMap (fun r =>
    (if r.funcao1 ≠ "" then [⟨r.funcao1, r.data, r.empresa⟩] else [])
    ++ (if r.funcao2 ≠ "" then [⟨r.funcao2, r.data, r.empresa⟩] else []))

/-- C7: exploding a two-role roster emits exactly one row per non-empty
role value — the output length is the count of non-empty role-1 values
plus the count of non-empty role-2 values — a row with exactly one
non-empty role contributes exactly one single-role row, and a row with
both roles empty is dropped entirely. -/
theorem explodeRoles_spec (rows : List ArtisticRow) (r : ArtisticRow) :
    (explodeRoles rows).length
      = (rows.filter (fun q => q.funcao1 != "")).length
        + (rows.filter (fun q => q.funcao2 != "")).length
    ∧ (r.funcao1 ≠ "" → r.funcao2 = "" →
        explodeRoles [r] = [⟨r.funcao1, r.data, r.empresa⟩])
    ∧ (r.funcao1 = "" → r.funcao2 = "" → explodeRoles [r] = []) := by
  refine ⟨?_, ?_, ?_⟩
  · induction rows with
    | nil => rfl
    | cons q rows ih =>
      by_cases h1 : q.funcao1 = "" <;> by_cases h2 : q.funcao2 = "" <;>
        simp [explodeRoles, List.flatMap_cons, List.filter_cons, h1, h2] at ih ⊢ <;>
        omega
  · intro h1 h2
    simp [explodeRoles, h1, h2]
  · intro h1 h2
    simp [explodeRoles, h1, h2]

/-- C7 witness (Scenario B): a staffing row with role-1 "Segurança" and
role-2 empty yields exactly one output row with category "Segurança", and
a row with both roles empty yields none. -/
theorem explodeRoles_spec_witness :
    explodeRoles [⟨"Segurança", "", 1, "ACME"⟩] = [⟨"Segurança", 1, "ACME"⟩]
    ∧ explodeRoles [⟨"", "", 1, "ACME"⟩] = [] := by
  have h1 := explodeRoles_spec [⟨"Segurança", "", 1, "ACME"⟩] ⟨"Segurança", "", 1, "ACME"⟩
  have h2 := explodeRoles_spec [] (⟨"", "", 1, "ACME"⟩ : ArtisticRow)
  exact ⟨h1.2.1 (by decide) rfl, h2.2.2 rfl rfl⟩

/- ### C9 — ticket count and net price after cleaning (`app.py` 32-70) -/

/-- One raw ticketing row with the fields the load-time cleaning touches
or carries through: `TDL Event Date`, `TDL Customer CPF` (already cast to
text by `.astype(str)`), `TDL Customer Birth Date` (in days),
`TDL Sum Tickets (B+S-A)` and `TDL Sum Ticket Net Price (B+S-A)`. -/
structure TicketRow where
  eventDate : Option Int
  cpf : Option String
  birthDate : Option Int
  tickets : Int
  netPrice : ℚ
  deriving DecidableEq, Repr

/-- One cleaned ticketing row: CPF normalized, derived `Idade` and
`Faixa Etária` columns added, everything else carried through. -/
structure TicketRowClean where
  eventDate : Option Int
  cpf : Option String
  birthDate : Option Int
  tickets : Int
  netPrice : ℚ
  idade : Option Int
  faixa : Option String
  deriving DecidableEq, Repr

/-- The load-time cleaning pass of `load_data` on one ticketing row
(`app.py` lines 47-70): dates kept as parsed, CPF normalized, age and age
bracket derived (`todayDays` standing for `pd.Timestamp.now()` in days).
No cleaning step reads or writes the ticket count or the net price. -/
def cleanTicketRow (todayDays : Int) (r : TicketRow) : TicketRowClean :=
  { eventDate := r.eventDate
    cpf := cleanCPF r.cpf
    birthDate := r.birthDate
    tickets := r.tickets
    netPrice := r.netPrice
    idade := r.birthDate.map (fun b => idadeAnos todayDays b)
    faixa := (r.birthDate.map (fun b => idadeAnos todayDays b)).bind faixaEtaria }

/-- C9 counterexample: a raw row carrying a ticket count of -1 and a net
price of -5 (as a B+S-A balance can be) passes through the cleaning pass
unchanged, so after cleaning both measures are negative, contradicting the
claimed invariant. -/
theorem cleanTicketRow_keeps_negative :
    (cleanTicketRow 0 ⟨none, none, none, -1, -5⟩).tickets = -1
    ∧ (cleanTicketRow 0 ⟨none, none, none, -1, -5⟩).tickets < 0
    ∧ (cleanTicketRow 0 ⟨none, none, none, -1, -5⟩).netPrice < 0 := by
  refine ⟨rfl, by norm_num [cleanTicketRow], by norm_num [cleanTicketRow]⟩

/-- C9 (amended): the cleaning pass copies the ticket count and the net
price verbatim — it enforces no sign constraint — so after cleaning the
two measures are non-negative exactly when they were non-negative in the
raw source row. -/
theorem cleanTicketRow_preserves_measures (todayDays : Int) (r : TicketRow) :
    (cleanTicketRow todayDays r).tickets = r.tickets
    ∧ (cleanTicketRow todayDays r).netPrice = r.netPrice
    ∧ (0 ≤ r.tickets → 0 ≤ (cleanTicketRow todayDays r).tickets)
    ∧ (0 ≤ r.netPrice → 0 ≤ (cleanTicketRow todayDays r).netPrice) := by
  exact ⟨rfl, rfl, fun h => h, fun h => h⟩

/-- C9 witness: a row with 2 tickets at total net price 10 stays
non-negative through cleaning. -/
theorem cleanTicketRow_preserves_measures_witness :
    (0 : Int) ≤ (cleanTicketRow 0 ⟨none, none, none, 2, 10⟩).tickets
    ∧ (0 : ℚ) ≤ (cleanTicketRow 0 ⟨none, none, none, 2, 10⟩).netPrice := by
  have h := cleanTicketRow_preserves_measures 0 ⟨none, none, none, 2, 10⟩
  exact ⟨h.2.2.1 (by norm_num), h.2.2.2 (by norm_num)⟩

/- ### C10 — administrative-region bucketing (`app.py` 315-480) -/

/-- Neighborhood names mapped to "Zona Sul" in `bairro_para_ra` (`app.py`). -/
def zonaSulBairros : List String :=
  ["Copacabana", "Ipanema", "Leblon", "Botafogo", "Flamengo", "Laranjeiras",
   "Catete", "Glória", "Humaitá", "Urca", "Leme", "Lagoa",
   "Jardim Botânico", "Gávea", "São Conrado", "Vidigal", "Rocinha"]

/-- Neighborhood names mapped to "Centro" in `bairro_para_ra` (`app.py`). -/
def centroBairros : List String :=
  ["Centro", "Lapa", "Santa Teresa", "Cinelândia", "Castelo", "Saúde",
   "Gamboa", "Santo Cristo", "Caju", "Cidade Nova"]

/-- Neighborhood names mapped to "Zona Norte" in `bairro_para_ra` (`app.py`). -/
def zonaNorteBairros : List String :=
  ["Tijuca", "Vila Isabel", "Grajaú", "Andaraí", "Maracanã",
   "Alto da Boa Vista", "Praça da Bandeira", "São Cristóvão", "Mangueira",
   "Benfica", "Sampaio", "Engenho Novo", "Riachuelo", "Rocha",
   "Todos os Santos", "Méier", "Cachambi", "Engenho de Dentro",
   "Lins de Vasconcelos", "Abolição", "Água Santa", "Encantado", "Piedade",
   "Pilares", "Inhaúma", "Del Castilho", "Maria da Graça", "Tomás Coelho",
   "Jacaré", "Jacarezinho", "Complexo do Alemão", "Higienópolis",
   "Bonsucesso", "Ramos", "Olaria", "Penha", "Penha Circular",
   "Brás de Pina", "Cordovil", "Parada de Lucas", "Vigário Geral",
   "Jardim América", "Vila da Penha", "Vista Alegre", "Irajá", "Colégio",
   "Vicente de Carvalho", "Vila Kosmos", "Madureira", "Oswaldo Cruz",
   "Bento Ribeiro", "Marechal Hermes", "Rocha Miranda", "Turiaçu",
   "Cascadura", "Campinho", "Quintino Bocaiuva", "Cavalcanti",
   "Engenheiro Leal", "Honório Gurgel", "Guadalupe", "Acari",
   "Costa Barros", "Pavuna", "Anchieta", "Parque Anchieta",
   "Ricardo de Albuquerque", "Coelho Neto"]

/-- Neighborhood names mapped to "Zona Oeste" in `bairro_para_ra` (`app.py`). -/
def zonaOesteBairros : List String :=
  ["Barra da Tijuca", "Recreio dos Bandeirantes", "Jacarepaguá",
   "Freguesia", "Pechincha", "Taquara", "Tanque", "Praça Seca",
   "Vila Valqueire", "Curicica", "Camorim", "Vargem Grande",
   "Vargem Pequena", "Anil", "Gardênia Azul", "Cidade de Deus", "Itanhangá",
   "Joá", "Grumari", "Bangu", "Senador Camará", "Gericinó", "Padre Miguel",
   "Realengo", "Campo dos Afonsos", "Magalhães Bastos", "Vila Militar",
   "Deodoro", "Jardim Sulacap", "Campo Grande", "Senador Vasconcelos",
   "Inhoaíba", "Cosmos", "Santíssimo", "Santa Cruz", "Paciência",
   "Sepetiba", "Guaratiba", "Barra de Guaratiba", "Pedra de Guaratiba"]
/-- The bairro→RA reference dictionary (`app.py` lines 329-472), grouped
exactly as the source groups it by region. -/
def bairroParaRA : List (String × String) :=
  zonaSulBairros.map (fun b => (b, "Zona Sul"))
  ++ centroBairros.map (fun b => (b, "Centro"))
  ++ zonaNorteBairros.map (fun b => (b, "Zona Norte"))
  ++ zonaOesteBairros.map (fun b => (b, "Zona Oeste"))

/-- Dictionary lookup as performed by `Series.map(bairro_para_ra)` on one
cell. -/
def lookupRA (b : String) : Option String :=
  (bairroParaRA.find? (fun p => p.1 == b)).map Prod.snd

/-- Per-row value of the derived column when the bairro column is present
(`app.py` lines 474-478):
`df[bairro_col].map(bairro_para_ra).fillna("RA não mapeada")` — a null
bairro cell or one that is no key of the dictionary gives
`"RA não mapeada"`. -/
def regiaoRow (bairro : Option String) : String :=
  (bairro.bind lookupRA).getD "RA não mapeada"

/-- `adicionar_regiao_administrativa` (`app.py` lines 315-480), restricted
to the derived `Região Administrativa` column: when the bairro column is
absent every row gets `"Não informado"` (lines 323-326), otherwise each
row gets its mapped region with the fallback `"RA não mapeada"`. -/
def adicionarRegiaoAdministrativa (hasBairroCol : Bool)
    (bairros : List (Option String)) : List String :=
  if hasBairroCol then bairros.map regiaoRow
  else bairros.map (fun _ => "Não informado")

theorem lookupRA_mem_zones (b ra : String) (h : lookupRA b = some ra) :
    ra = "Zona Sul" ∨ ra = "Centro" ∨ ra = "Zona Norte" ∨ ra = "Zona Oeste" := by
  simp only [lookupRA, Option.map_eq_some'] at h
  obtain ⟨p, hfind, hpe⟩ := h
  have hmem := List.mem_of_find?_eq_some hfind
  subst hpe
  rw [bairroParaRA] at hmem
  rcases List.mem_append.mp hmem with habc | h4
  · rcases List.mem_append.mp habc with hab | h3
    · rcases List.mem_append.mp hab with h1 | h2
      · obtain ⟨x, _, heq⟩ := List.mem_map.mp h1
        exact Or.inl (by rw [← heq])
      · obtain ⟨x, _, heq⟩ := List.mem_map.mp h2
        exact Or.inr (Or.inl (by rw [← heq]))
    · obtain ⟨x, _, heq⟩ := List.mem_map.mp h3
      exact Or.inr (Or.inr (Or.inl (by rw [← heq])))
  · obtain ⟨x, _, heq⟩ := List.mem_map.mp h4
    exact Or.inr (Or.inr (Or.inr (by rw [← heq])))

theorem regiaoRow_ne_naoInformado (b : Option String) :
    regiaoRow b ≠ "Não informado" := by
  rw [regiaoRow]
  cases hb : b.bind lookupRA with
  | none => decide
  | some ra =>
    obtain ⟨x, _, hx⟩ := Option.bind_eq_some.mp hb
    rcases lookupRA_mem_zones x ra hx with h | h | h | h <;> subst h <;> decide

/-- C10: the derived `Região Administrativa` column keeps one value per
input row, every value is one of the six strings "Zona Sul", "Centro",
"Zona Norte", "Zona Oeste", "RA não mapeada", "Não informado"; a row's
value is "Não informado" exactly when the bairro column is absent from the
input, and a present bairro that is no key of the reference dictionary
yields "RA não mapeada". -/
theorem adicionarRegiaoAdministrativa_spec (hasBairroCol : Bool)
    (bairros : List (Option String)) :
    (adicionarRegiaoAdministrativa hasBairroCol bairros).length = bairros.length
    ∧ (∀ ra ∈ adicionarRegiaoAdministrativa hasBairroCol bairros,
        (ra = "Zona Sul" ∨ ra = "Centro" ∨ ra = "Zona Norte" ∨ ra = "Zona Oeste"
          ∨ ra = "RA não mapeada" ∨ ra = "Não informado")
        ∧ (ra = "Não informado" ↔ hasBairroCol = false))
    ∧ (∀ b : String, b ∉ bairroParaRA.map Prod.fst →
        regiaoRow (some b) = "RA não mapeada") := by
  refine ⟨?_, ?_, ?_⟩
  · rw [adicionarRegiaoAdministrativa]
    cases hasBairroCol <;> simp
  · intro ra hra
    cases hasBairroCol with
    | false =>
      have hform : adicionarRegiaoAdministrativa false bairros
          = bairros.map (fun _ => "Não informado") := by
        rw [adicionarRegiaoAdministrativa]
        simp
      rw [hform] at hra
      obtain ⟨_, _, rfl⟩ := List.mem_map.mp hra
      exact ⟨Or.inr (Or.inr (Or.inr (Or.inr (Or.inr rfl)))), by simp⟩
    | true =>
      rw [adicionarRegiaoAdministrativa, if_pos rfl] at hra
      obtain ⟨b, _, rfl⟩ := List.mem_map.mp hra
      constructor
      · rw [regiaoRow]
        cases hb : b.bind lookupRA with
        | none => simp
        | some z =>
          obtain ⟨x, _, hx⟩ := Option.bind_eq_some.mp hb
          rcases lookupRA_mem_zones x z hx with h | h | h | h <;> subst h <;> simp
      · constructor
        · intro h
          exact absurd h (regiaoRow_ne_naoInformado b)
        · intro h
          simp at h
  · intro b hb
    have hfind : bairroParaRA.find? (fun p => p.1 == b) = none := by
      rw [List.find?_eq_none]
      intro p hp hpb
      exact hb (List.mem_map.mpr ⟨p, hp, by simpa using beq_iff_eq.mp hpb⟩)
    rw [regiaoRow]
    simp [lookupRA, hfind]

/-- C10 witness: with the bairro column present, "Copacabana" maps to
"Zona Sul" and the unmapped name "Atlântida" falls back to
"RA não mapeada"; with the column absent, a row gets "Não informado". -/
theorem adicionarRegiaoAdministrativa_spec_witness :
    adicionarRegiaoAdministrativa true [some "Copacabana"] = ["Zona Sul"]
    ∧ regiaoRow (some "Atlântida") = "RA não mapeada"
    ∧ adicionarRegiaoAdministrativa false [some "Copacabana"] = ["Não informado"] := by
  have h := adicionarRegiaoAdministrativa_spec true [some "Copacabana"]
  exact ⟨by decide, h.2.2 "Atlântida" (by decide), by decide⟩
